import Mathlib

/-!
Verification development for a message-relay bot (src/bot.py).

The bot keeps a durable session store mapping a Discord user id to an OpenAI
thread id (`user_threads`, persisted as a JSON object), resolves or creates a
thread per inbound message, posts the message, starts an assistant run, polls
it with a 1.5 s interval against a 120 s wall-clock deadline, extracts the
reply by a newest-first scan of the conversation messages, resets the session
on an empty reply, and sends long replies in 1990-character chunks.

The definitions below are a shallow embedding of `bot.py`.  Time is modelled
in tenths of a second so that the 1.5 s poll interval stays in `Nat`.  Remote
API behaviour is abstracted as an oracle environment (`RunEnv`).  The two
near-identical handler blocks of the source (direct messages, lines 94-249,
and server mentions, lines 254-437) share all the session/run logic; the
shared block is modelled once (`execRun`) and the mention-specific
mention-stripping and empty-text check are modelled in `handleMention`.
-/

/-! ### Session store (bot.py lines 17-50, `user_threads` / Python dict)

A Python dict with int keys and string values, modelled as an association
list in insertion order.  `get`/`put`/`remove` mirror `dict.get`,
`d[k] = v` and `del d[k]`. -/

abbrev Store := List (Nat × String)

def Store.get : Store → Nat → Option String
  | [], _ => none
  | kv :: rest, u => if kv.1 = u then some kv.2 else Store.get rest u

def Store.put : Store → Nat → String → Store
  | [], u, v => [(u, v)]
  | kv :: rest, u, v => if kv.1 = u then (u, v) :: rest else kv :: Store.put rest u v

def Store.remove : Store → Nat → Store
  | [], _ => []
  | kv :: rest, u => if kv.1 = u then Store.remove rest u else kv :: Store.remove rest u

/-! ### Decimal serialization of user ids (Python `str(k)` / `int(k)`)

`save_threads` serializes the integer keys with `str`, `load_threads` parses
them back with `int`.  Discord user ids are non-negative, so keys are `Nat`.
`natToString` produces the standard decimal form (what Python `str` prints
for a non-negative int); `stringToNat` parses a plain decimal string (the
fragment of Python `int` exercised by the store files). -/

def digitChar (d : Nat) : Char := Char.ofNat (48 + d)

def natDigitsRev : Nat → List Nat
  | 0 => []
  | n + 1 => (n + 1) % 10 :: natDigitsRev ((n + 1) / 10)
decreasing_by exact Nat.div_lt_self (Nat.succ_pos n) (by omega)

def natToString (n : Nat) : String :=
  if n = 0 then "0" else String.mk ((natDigitsRev n).reverse.map digitChar)

def strDigit? (c : Char) : Option Nat :=
  if 48 ≤ c.toNat ∧ c.toNat ≤ 57 then some (c.toNat - 48) else none

def digitStep (acc : Option Nat) (c : Char) : Option Nat :=
  match acc, strDigit? c with
  | some a, some d => some (a * 10 + d)
  | _, _ => none

def stringToNat (s : String) : Option Nat :=
  if s.data = [] then none
  else s.data.foldl digitStep (some 0)

/-! ### Persistence (bot.py lines 21-50, `load_threads` / `save_threads`)

`save_threads` writes `{str(k): v for k, v in user_threads.items()}` to the
JSON file; `load_threads` reads it back as `{int(k): v ...}`.  The on-disk
JSON object is modelled as an ordered list of string pairs.  A missing file
(`FileNotFoundError`) and undecodable content (`json.JSONDecodeError`) are
the two failure states of the file; a decodable file whose keys fail `int`
is caught by the generic `except Exception` handler. -/

inductive FileState
  | missing
  | malformed
  | valid (entries : List (String × String))

inductive LoadLog
  | loadedOk (n : Nat)
  | warnMissing
  | errorDecode
  | errorOther

def entriesOfFile : List (String × String) → Option Store
  | [] => some []
  | kv :: rest =>
    match stringToNat kv.1, entriesOfFile rest with
    | some k, some m => some ((k, kv.2) :: m)
    | _, _ => none

def load_threads : FileState → Store × LoadLog
  | .missing => ([], .warnMissing)
  | .malformed => ([], .errorDecode)
  | .valid d =>
    match entriesOfFile d with
    | some m => (m, .loadedOk m.length)
    | none => ([], .errorOther)

def save_threads (store : Store) : List (String × String) :=
  store.map (fun kv => (natToString kv.1, kv.2))

/-! ### Session resolution (bot.py lines 102-116 and 293-307)

`thread_id = user_threads.get(user_id); if not thread_id: ...` — note the
lookup result is tested for Python truthiness, so both a missing key and an
empty-string value take the create path.  On create success the new id is
stored and `save_threads()` is called; on an API exception the handler
reports a failure and aborts the cycle. -/

def truthy : Option String → Bool
  | none => false
  | some s => !(s = "")

structure ResolveResult where
  store : Store
  tid : String
  createCalls : Nat
  saves : Nat
  ok : Bool

def resolveThread (createRes : Option String) (store : Store) (uid : Nat) : ResolveResult :=
  let tid? := Store.get store uid
  if truthy tid? then
    { store := store, tid := tid?.getD "", createCalls := 0, saves := 0, ok := true }
  else
    match createRes with
    | some cid =>
      { store := Store.put store uid cid, tid := cid, createCalls := 1, saves := 1, ok := true }
    | none =>
      { store := store, tid := "", createCalls := 1, saves := 0, ok := false }

/-! ### Run status and polling (bot.py lines 136-152 and 326-342)

`while run.status in ['queued', 'in_progress', 'cancelling']: sleep(1.5);
run = retrieve(); if time.time() - start_time > 120: cancel; return`.
Time is in tenths of a second: the poll interval is 15, the deadline 1200.
`sts n` is the status visible after the n-th retrieve (`sts 0` is the status
returned by `runs.create`).  On the deadline breach the loop has already
retrieved once more, then cancels once and exits with the timeout flag. -/

inductive RunStatus
  | queued
  | in_progress
  | cancelling
  | completed
  | requires_action
  | failed
  | cancelled
  | expired
deriving DecidableEq, Repr

def pollIntervalDecis : Nat := 15

def timeoutDecis : Nat := 1200

def pendingB : RunStatus → Bool
  | .queued | .in_progress | .cancelling => true
  | _ => false

structure PollResult where
  finalIdx : Nat
  elapsed : Nat
  timedOut : Bool
  finalStatus : RunStatus
  cancels : Nat
deriving DecidableEq, Repr

def pollRun (sts : Nat → RunStatus) (i t : Nat) : PollResult :=
  if pendingB (sts i) then
    if 1200 < t + 15 then
      { finalIdx := i + 1, elapsed := t + 15, timedOut := true,
        finalStatus := sts (i + 1), cancels := 1 }
    else
      pollRun sts (i + 1) (t + 15)
  else
    { finalIdx := i, elapsed := t, timedOut := false, finalStatus := sts i, cancels := 0 }
termination_by 1215 - t
decreasing_by omega

/-! ### Reply extraction (bot.py lines 155-176 and 345-363)

Messages are fetched oldest-first (`order="asc"`), scanned via
`reversed(...)`: every text block of an assistant message of this run is
appended, and the scan stops after the first user message not of this run.
The final reply is `"\n".join(reversed(assistant_responses))`. -/

structure ContentBlock where
  type : String
  text : String
deriving DecidableEq, Repr

structure ThreadMsg where
  run_id : Option String
  role : String
  content : List ContentBlock
deriving DecidableEq, Repr

def segsOf (rid : String) (m : ThreadMsg) : List String :=
  if m.run_id = some rid ∧ m.role = "assistant" then
    (m.content.filter (fun b => b.type = "text")).map (fun b => b.text)
  else []

def collectResponses (rid : String) : List ThreadMsg → List String
  | [] => []
  | m :: rest =>
    if m.role = "user" ∧ m.run_id ≠ some rid then segsOf rid m
    else segsOf rid m ++ collectResponses rid rest

def extractReply (rid : String) (dataAsc : List ThreadMsg) : String :=
  String.intercalate "\n" (collectResponses rid dataAsc.reverse).reverse

/-- Modelled from the spec: the extraction result the spec describes — the
same newest-first scan with the same stopping rule selects the messages, but
the collected segments are joined in chronological order (message order
oldest-first, block order within a message preserved).  Used as the
spec-side definition in the refinement comparison for the extraction
algorithm. -/
def scanIncluded (rid : String) : List ThreadMsg → List ThreadMsg
  | [] => []
  | m :: rest =>
    if m.role = "user" ∧ m.run_id ≠ some rid then [m]
    else m :: scanIncluded rid rest

/-- Modelled from the spec: chronological join of the collected segments
(see `scanIncluded`). -/
def chronologicalReply (rid : String) (dataAsc : List ThreadMsg) : String :=
  String.intercalate "\n"
    (((scanIncluded rid dataAsc.reverse).reverse).flatMap (segsOf rid))

/-! ### Chunked sending (bot.py lines 180-186 and 367-376)

`parts = [full_response[i:i+1990] for i in range(0, len(full_response), 1990)]`
sent in order when the reply exceeds the 2000-character single-message
limit. -/

def chunkSize : Nat := 1990

def chunkText : List Char → List (List Char)
  | [] => []
  | c :: rest => (c :: rest).take 1990 :: chunkText ((c :: rest).drop 1990)
termination_by l => l.length
decreasing_by
  simp only [List.length_drop, List.length_cons]
  omega

def sendChunked (full : String) : List String :=
  if full.length ≤ 2000 then [full]
  else (chunkText full.data).map (fun p => String.mk p)

/-! ### User-visible texts (apostrophes of the source texts are elided) -/

def tooLongMsg : String := "Sorry, the request took too long to process. Please try again."

def resetMsg : String := "I seemed to have trouble retrieving the last response, so I have reset our conversation context. Please try sending your message again!"

def requiresActionMsg : String := "Sorry, I need to perform an action I cannot do right now."

def failedMsg : Option String → String
  | some c => "Sorry, something went wrong while processing. (Error code: " ++ c ++ ")"
  | none => "Sorry, something went wrong while processing."

def statusText : RunStatus → String
  | .queued => "queued"
  | .in_progress => "in_progress"
  | .cancelling => "cancelling"
  | .completed => "completed"
  | .requires_action => "requires_action"
  | .failed => "failed"
  | .cancelled => "cancelled"
  | .expired => "expired"

def unhandledMsg (s : RunStatus) : String :=
  "Sorry, the processing ended unexpectedly. (Status: " ++ statusText s ++ ")"

def couldNotInitMsg : String := "Sorry, I could not initiate our conversation context. Please try again later."

def promptMsg : String := "Hi, did you need something?"

/-! ### One run cycle (bot.py lines 119-239; the mirror block is 310-427)

The remote API is abstracted as an oracle: `createRes` is the outcome of
`threads.create` (`none` = raised), `runId` the id issued by `runs.create`,
`statuses` the status oracle for the poll loop, `msgs` the conversation
messages returned by `messages.list(order="asc")`, `deleteNotFound` whether
`threads.delete` reports not-found (the handler catches `openai.NotFoundError`
and continues, so no result depends on this field — a not-found outcome is
tolerated as non-fatal), and `lastErr` the remote error code of a failed
run. -/

structure RunEnv where
  createRes : Option String
  runId : String
  statuses : Nat → RunStatus
  msgs : List ThreadMsg
  deleteNotFound : Bool
  lastErr : Option String

inductive ExecOutcome
  | replied (text : String)
  | emptyReplyReset
  | timedOut
  | requiresUserAction
  | runFailed (code : Option String)
  | runUnhandled (s : RunStatus)
deriving DecidableEq, Repr

structure ExecResult where
  store : Store
  posted : List String
  runsStarted : Nat
  retrieves : Nat
  cancels : Nat
  deletes : Nat
  saves : Nat
  sent : List String
  outcome : ExecOutcome
deriving DecidableEq, Repr

def execRun (env : RunEnv) (store : Store) (uid : Nat) (content : String) : ExecResult :=
  let p := pollRun env.statuses 0 0
  if p.timedOut then
    { store := store, posted := [content], runsStarted := 1, retrieves := p.finalIdx,
      cancels := p.cancels, deletes := 0, saves := 0, sent := [tooLongMsg],
      outcome := .timedOut }
  else
    match p.finalStatus with
    | .completed =>
      let responses := collectResponses env.runId env.msgs.reverse
      if responses = [] then
        let problematic := Store.get store uid
        let present := (Store.get store uid).isSome
        { store := if present then Store.remove store uid else store,
          posted := [content], runsStarted := 1, retrieves := p.finalIdx,
          cancels := p.cancels, deletes := if truthy problematic then 1 else 0,
          saves := if present then 1 else 0, sent := [resetMsg],
          outcome := .emptyReplyReset }
      else
        let full := String.intercalate "\n" responses.reverse
        { store := store, posted := [content], runsStarted := 1, retrieves := p.finalIdx,
          cancels := p.cancels, deletes := 0, saves := 0, sent := sendChunked full,
          outcome := .replied full }
    | .requires_action =>
      { store := store, posted := [content], runsStarted := 1, retrieves := p.finalIdx,
        cancels := p.cancels, deletes := 0, saves := 0, sent := [requiresActionMsg],
        outcome := .requiresUserAction }
    | .failed =>
      { store := store, posted := [content], runsStarted := 1, retrieves := p.finalIdx,
        cancels := p.cancels, deletes := 0, saves := 0, sent := [failedMsg env.lastErr],
        outcome := .runFailed env.lastErr }
    | s =>
      { store := store, posted := [content], runsStarted := 1, retrieves := p.finalIdx,
        cancels := p.cancels, deletes := 0, saves := 0, sent := [unhandledMsg s],
        outcome := .runUnhandled s }

/-! ### Mention stripping (bot.py lines 268-274)

Both mention spellings are removed with Python `str.replace` (all
non-overlapping occurrences, left to right), then the text is
whitespace-stripped. -/

def replaceAll (pat : List Char) (s : List Char) : List Char :=
  match s with
  | [] => []
  | c :: rest =>
    if pat.isPrefixOf (c :: rest) ∧ pat ≠ [] then
      replaceAll pat ((c :: rest).drop pat.length)
    else
      c :: replaceAll pat rest
termination_by s.length
decreasing_by
  · simp only [List.length_drop]
    rename_i h
    have : pat.length ≠ 0 := by
      intro h0
      exact h.2 (List.eq_nil_of_length_eq_zero h0)
    simp only [List.length_cons]
    omega
  · simp

def trimChars (s : List Char) : List Char :=
  ((s.dropWhile Char.isWhitespace).reverse.dropWhile Char.isWhitespace).reverse

def stripMentions (botId : Nat) (content : String) : String :=
  let p1 := ("<@!" ++ natToString botId ++ ">").data
  let p2 := ("<@" ++ natToString botId ++ ">").data
  String.mk (trimChars (replaceAll p2 (replaceAll p1 content.data)))

/-! ### Inbound routing (bot.py lines 84-96, 254-287, 441-447)

A direct message goes straight to the run cycle with the raw content — the
DM branch has no empty-text check.  A guild message is processed only when
the bot is mentioned and the message is not an everyone-mention; the mention
tokens are stripped and an empty remainder is answered with a prompt without
touching the session or the remote API. -/

inductive HandlerOutcome
  | ranTo (o : ExecOutcome)
  | sessionCreationFailed
  | emptyPrompt
  | ignored
deriving DecidableEq, Repr

structure HandleResult where
  store : Store
  createCalls : Nat
  posted : List String
  runsStarted : Nat
  retrieves : Nat
  cancels : Nat
  deletes : Nat
  saves : Nat
  sent : List String
  outcome : HandlerOutcome
deriving DecidableEq, Repr

def handleDM (env : RunEnv) (store : Store) (uid : Nat) (content : String) : HandleResult :=
  let r := resolveThread env.createRes store uid
  if r.ok then
    let e := execRun env r.store uid content
    { store := e.store, createCalls := r.createCalls, posted := e.posted,
      runsStarted := e.runsStarted, retrieves := e.retrieves, cancels := e.cancels,
      deletes := e.deletes, saves := r.saves + e.saves, sent := e.sent,
      outcome := .ranTo e.outcome }
  else
    { store := store, createCalls := 1, posted := [], runsStarted := 0, retrieves := 0,
      cancels := 0, deletes := 0, saves := 0, sent := [couldNotInitMsg],
      outcome := .sessionCreationFailed }

def handleMention (env : RunEnv) (store : Store) (uid botId : Nat) (content : String) :
    HandleResult :=
  let actual := stripMentions botId content
  if actual = "" then
    { store := store, createCalls := 0, posted := [], runsStarted := 0, retrieves := 0,
      cancels := 0, deletes := 0, saves := 0, sent := [promptMsg],
      outcome := .emptyPrompt }
  else
    handleDM env store uid actual

inductive Inbound
  | dm (uid : Nat) (content : String)
  | guildMsg (uid : Nat) (mentioned : Bool) (mentionsEveryone : Bool) (content : String)

def ignoredResult (store : Store) : HandleResult :=
  { store := store, createCalls := 0, posted := [], runsStarted := 0, retrieves := 0,
    cancels := 0, deletes := 0, saves := 0, sent := [], outcome := .ignored }

def on_message (env : RunEnv) (botId : Nat) (authorIsBot : Bool) (store : Store) :
    Inbound → HandleResult
  | .dm uid content =>
    if authorIsBot then ignoredResult store else handleDM env store uid content
  | .guildMsg uid mentioned mentionsEveryone content =>
    if authorIsBot then ignoredResult store
    else if mentioned then
      if mentionsEveryone then ignoredResult store
      else handleMention env store uid botId content
    else ignoredResult store

/-! ### Outcome classification used by the frame claims -/

def frameOutcome : ExecOutcome → Bool
  | .timedOut | .requiresUserAction | .runFailed _ | .runUnhandled _ => true
  | .replied _ | .emptyReplyReset => false

/-! ### Concrete oracle environments used by witnesses and counterexamples -/

def envFailedRun : RunEnv :=
  { createRes := some "thread_new", runId := "run_1", statuses := fun _ => .failed,
    msgs := [], deleteNotFound := false, lastErr := none }

def envCompletedEmpty : RunEnv :=
  { createRes := some "thread_new", runId := "run_1", statuses := fun _ => .completed,
    msgs := [], deleteNotFound := true, lastErr := none }

def envHello : RunEnv :=
  { createRes := some "thread_new", runId := "run_1",
    statuses := fun n => if n = 0 then .queued else .completed,
    msgs := [ { run_id := none, role := "user", content := [{ type := "text", text := "hi" }] },
              { run_id := some "run_1", role := "assistant",
                content := [{ type := "text", text := "hello" }] } ],
    deleteNotFound := false, lastErr := none }

def envAllQueued : RunEnv :=
  { createRes := some "thread_new", runId := "run_1", statuses := fun _ => .queued,
    msgs := [], deleteNotFound := false, lastErr := none }

/-- Message list with one assistant message of this run holding two text
blocks; exhibits the block-order reversal of the extraction code. -/
def dTwoBlocks : List ThreadMsg :=
  [ { run_id := none, role := "user", content := [{ type := "text", text := "hi" }] },
    { run_id := some "run_1", role := "assistant",
      content := [{ type := "text", text := "a" }, { type := "text", text := "b" }] } ]

/-! ## Helper lemmas -/

theorem Store.get_put (s : Store) (u : Nat) (v : String) :
    Store.get (Store.put s u v) u = some v := by
  induction s with
  | nil => simp [Store.put, Store.get]
  | cons kv rest ih =>
    by_cases h : kv.1 = u
    · simp [Store.put, Store.get, h]
    · simp [Store.put, Store.get, h, ih]

theorem Store.get_remove (s : Store) (u : Nat) :
    Store.get (Store.remove s u) u = none := by
  induction s with
  | nil => simp [Store.remove, Store.get]
  | cons kv rest ih =>
    by_cases h : kv.1 = u
    · simp [Store.remove, h, ih]
    · simp [Store.remove, Store.get, h, ih]

theorem pollRun_not_pending (sts : Nat → RunStatus) (i t : Nat)
    (h : pendingB (sts i) = false) :
    pollRun sts i t =
      { finalIdx := i, elapsed := t, timedOut := false, finalStatus := sts i, cancels := 0 } := by
  rw [pollRun.eq_def, h]
  simp

theorem pollRun_step (sts : Nat → RunStatus) (i t : Nat)
    (h : pendingB (sts i) = true) (h2 : t + 15 ≤ 1200) :
    pollRun sts i t = pollRun sts (i + 1) (t + 15) := by
  rw [pollRun.eq_def, h]
  simp only [if_true]
  rw [if_neg (by omega)]

theorem pollRun_timeout_exit (sts : Nat → RunStatus) (i t : Nat)
    (h : pendingB (sts i) = true) (h2 : 1200 < t + 15) :
    pollRun sts i t =
      { finalIdx := i + 1, elapsed := t + 15, timedOut := true,
        finalStatus := sts (i + 1), cancels := 1 } := by
  rw [pollRun.eq_def, h]
  simp only [if_true]
  rw [if_pos h2]

theorem pollRun_bounds (sts : Nat → RunStatus) :
    ∀ (n i t : Nat), 1215 - t ≤ 15 * n → t ≤ 1200 →
      (pollRun sts i t).elapsed ≤ 1215 ∧
      (pollRun sts i t).finalIdx ≤ i + n ∧
      (pollRun sts i t).cancels = (if (pollRun sts i t).timedOut then 1 else 0) := by
  intro n
  induction n with
  | zero => intro i t h ht; omega
  | succ n ih =>
    intro i t h ht
    by_cases hp : pendingB (sts i)
    · by_cases h2 : 1200 < t + 15
      · rw [pollRun_timeout_exit sts i t hp h2]
        refine ⟨?_, ?_, ?_⟩ <;> (simp; try omega)
      · rw [pollRun_step sts i t hp (by omega)]
        have := ih (i + 1) (t + 15) (by omega) (by omega)
        exact ⟨this.1, by omega, this.2.2⟩
    · rw [pollRun_not_pending sts i t (by simpa using hp)]
      refine ⟨?_, ?_, ?_⟩ <;> (simp; try omega)

theorem pollRun_all_pending_timedOut (sts : Nat → RunStatus)
    (hall : ∀ k, pendingB (sts k) = true) :
    ∀ (n i t : Nat), 1200 - t ≤ 15 * n → t ≤ 1200 →
      (pollRun sts i t).timedOut = true := by
  intro n
  induction n with
  | zero =>
    intro i t h ht
    have ht' : t = 1200 := by omega
    subst ht'
    rw [pollRun_timeout_exit sts i 1200 (hall i) (by omega)]
  | succ n ih =>
    intro i t h ht
    by_cases h2 : 1200 < t + 15
    · rw [pollRun_timeout_exit sts i t (hall i) h2]
    · rw [pollRun_step sts i t (hall i) (by omega)]
      exact ih (i + 1) (t + 15) (by omega) (by omega)

theorem natDigitsRev_lt (n : Nat) : ∀ d ∈ natDigitsRev n, d < 10 := by
  induction n using Nat.strong_induction_on with
  | _ n ih =>
    match n with
    | 0 => simp [natDigitsRev]
    | m + 1 =>
      intro d hd
      rw [natDigitsRev] at hd
      rcases List.mem_cons.mp hd with h | h
      · subst h; exact Nat.mod_lt _ (by omega)
      · exact ih ((m + 1) / 10) (Nat.div_lt_self (Nat.succ_pos m) (by omega)) d h

theorem natDigitsRev_ne_nil (n : Nat) (h : n ≠ 0) : natDigitsRev n ≠ [] := by
  match n with
  | 0 => exact absurd rfl h
  | m + 1 => rw [natDigitsRev]; simp

theorem digitsRev_foldl (n : Nat) : ∀ a : Nat,
    ((natDigitsRev n).reverse).foldl (fun x d => x * 10 + d) a
      = a * 10 ^ (natDigitsRev n).length + n := by
  induction n using Nat.strong_induction_on with
  | _ n ih =>
    match n with
    | 0 => intro a; simp [natDigitsRev]
    | m + 1 =>
      intro a
      rw [natDigitsRev, List.reverse_cons, List.foldl_append]
      simp only [List.foldl_cons, List.foldl_nil, List.length_cons]
      rw [ih ((m + 1) / 10) (Nat.div_lt_self (Nat.succ_pos m) (by omega)) a]
      have hdm : 10 * ((m + 1) / 10) + (m + 1) % 10 = m + 1 := Nat.div_add_mod (m + 1) 10
      calc (a * 10 ^ (natDigitsRev ((m + 1) / 10)).length + (m + 1) / 10) * 10 + (m + 1) % 10
          = a * (10 ^ (natDigitsRev ((m + 1) / 10)).length * 10)
              + (10 * ((m + 1) / 10) + (m + 1) % 10) := by ring
        _ = a * 10 ^ ((natDigitsRev ((m + 1) / 10)).length + 1) + (m + 1) := by
            rw [pow_succ, hdm]

theorem strDigit?_digitChar (d : Nat) (hd : d < 10) : strDigit? (digitChar d) = some d := by
  interval_cases d <;> decide

theorem foldl_digitStep (l : List Nat) (hl : ∀ d ∈ l, d < 10) : ∀ a : Nat,
    (l.map digitChar).foldl digitStep (some a)
      = some (l.foldl (fun x d => x * 10 + d) a) := by
  induction l with
  | nil => intro a; simp
  | cons d rest ih =>
    intro a
    simp only [List.map_cons, List.foldl_cons]
    rw [show digitStep (some a) (digitChar d) = some (a * 10 + d) by
      simp [digitStep, strDigit?_digitChar d (hl d (List.mem_cons_self d rest))]]
    exact ih (fun x hx => hl x (List.mem_cons_of_mem d hx)) (a * 10 + d)

theorem stringToNat_natToString (n : Nat) : stringToNat (natToString n) = some n := by
  by_cases h0 : n = 0
  · subst h0; decide
  · rw [natToString, if_neg h0, stringToNat]
    have hdata : (String.mk ((natDigitsRev n).reverse.map digitChar)).data
        = (natDigitsRev n).reverse.map digitChar := rfl
    rw [hdata, if_neg (by
      simp only [ne_eq, List.map_eq_nil_iff, List.reverse_eq_nil_iff]
      exact natDigitsRev_ne_nil n h0)]
    rw [foldl_digitStep _ (fun d hd => natDigitsRev_lt n d (List.mem_reverse.mp hd)) 0]
    rw [digitsRev_foldl n 0]
    simp

theorem entriesOfFile_save (store : Store) :
    entriesOfFile (save_threads store) = some store := by
  induction store with
  | nil => simp [save_threads, entriesOfFile]
  | cons kv rest ih =>
    simp only [save_threads, List.map_cons, entriesOfFile]
    rw [stringToNat_natToString kv.1]
    simp only [save_threads] at ih
    rw [ih]

theorem chunkText_cons (l : List Char) (h : l ≠ []) :
    chunkText l = l.take 1990 :: chunkText (l.drop 1990) := by
  match l with
  | [] => exact absurd rfl h
  | c :: rest => rw [chunkText]

theorem chunkText_flatten (l : List Char) : (chunkText l).flatten = l := by
  induction l using chunkText.induct with
  | case1 => simp [chunkText]
  | case2 c rest ih =>
    rw [chunkText_cons (c :: rest) (by simp), List.flatten_cons, ih]
    exact List.take_append_drop 1990 (c :: rest)

theorem chunkText_part_le (l : List Char) : ∀ part ∈ chunkText l, part.length ≤ 1990 := by
  induction l using chunkText.induct with
  | case1 => simp [chunkText]
  | case2 c rest ih =>
    intro part hp
    rw [chunkText_cons (c :: rest) (by simp)] at hp
    rcases List.mem_cons.mp hp with h | h
    · subst h; simp
    · exact ih part h

theorem chunkText_len_5000 (l : List Char) (h : l.length = 5000) :
    (chunkText l).length = 3 := by
  have h1 : l ≠ [] := by intro he; rw [he] at h; simp at h
  rw [chunkText_cons l h1]
  have hd1 : (l.drop 1990).length = 3010 := by simp [h]
  have h2 : l.drop 1990 ≠ [] := by
    intro he; rw [he] at hd1; simp at hd1
  rw [chunkText_cons _ h2]
  have hd2 : ((l.drop 1990).drop 1990).length = 1020 := by simp [h]
  have h3 : (l.drop 1990).drop 1990 ≠ [] := by
    intro he; rw [he] at hd2; simp at hd2
  rw [chunkText_cons _ h3]
  have hd3 : (((l.drop 1990).drop 1990).drop 1990).length = 0 := by simp [h]
  rw [List.eq_nil_of_length_eq_zero hd3]
  simp [chunkText]

theorem collect_eq_flatMap (rid : String) (L : List ThreadMsg) :
    collectResponses rid L = (scanIncluded rid L).flatMap (segsOf rid) := by
  induction L with
  | nil => simp [collectResponses, scanIncluded]
  | cons m rest ih =>
    by_cases h : m.role = "user" ∧ m.run_id ≠ some rid
    · simp [collectResponses, scanIncluded, h]
    · simp [collectResponses, scanIncluded, h, ih]

theorem scanIncluded_subset (rid : String) (L : List ThreadMsg) :
    ∀ m ∈ scanIncluded rid L, m ∈ L := by
  induction L with
  | nil => simp [scanIncluded]
  | cons m rest ih =>
    intro x hx
    by_cases h : m.role = "user" ∧ m.run_id ≠ some rid
    · simp [scanIncluded, h] at hx
      simp [hx]
    · simp only [scanIncluded, if_neg h] at hx
      rcases List.mem_cons.mp hx with h1 | h1
      · simp [h1]
      · exact List.mem_cons_of_mem m (ih x h1)

theorem reverse_of_len_le_one {α : Type} (l : List α) (h : l.length ≤ 1) :
    l.reverse = l := by
  match l with
  | [] => rfl
  | [a] => rfl
  | a :: b :: rest => simp at h

/-! ## Claim theorems -/

/-- C1: for a user identity absent from the Session Store, one resolve
performs exactly one remote create call, inserts the mapping to the returned
identifier, and persists it (one save); a second immediate resolve performs
zero remote create calls, returns the same identifier, and leaves the store
unchanged.  The remote-issued identifier is assumed non-empty (OpenAI thread
ids are), matching the truthiness lookup of the code. -/
theorem c1_resolve_creates_once (store : Store) (uid : Nat) (cid : String)
    (habs : Store.get store uid = none) (hcid : cid ≠ "") :
    (resolveThread (some cid) store uid).createCalls = 1 ∧
    (resolveThread (some cid) store uid).saves = 1 ∧
    (resolveThread (some cid) store uid).tid = cid ∧
    (resolveThread (some cid) store uid).store = Store.put store uid cid ∧
    Store.get (resolveThread (some cid) store uid).store uid = some cid ∧
    (∀ cr2 : Option String,
      (resolveThread cr2 (resolveThread (some cid) store uid).store uid).createCalls = 0 ∧
      (resolveThread cr2 (resolveThread (some cid) store uid).store uid).tid = cid ∧
      (resolveThread cr2 (resolveThread (some cid) store uid).store uid).store =
        (resolveThread (some cid) store uid).store) := by
  have h1 : resolveThread (some cid) store uid =
      { store := Store.put store uid cid, tid := cid, createCalls := 1, saves := 1,
        ok := true } := by
    simp [resolveThread, habs, truthy]
  rw [h1]
  refine ⟨rfl, rfl, rfl, rfl, Store.get_put store uid cid, ?_⟩
  intro cr2
  have h2 : Store.get (Store.put store uid cid) uid = some cid := Store.get_put store uid cid
  refine ⟨?_, ?_, ?_⟩ <;> simp [resolveThread, h2, truthy, hcid]

/-- Witness for C1 at a concrete input: user 7 absent from the empty store,
created identifier `thread_new`. -/
theorem c1_witness :
    (resolveThread (some "thread_new") [] 7).createCalls = 1 ∧
    (resolveThread (some "thread_new") [] 7).saves = 1 ∧
    (resolveThread (some "thread_new") [] 7).tid = "thread_new" ∧
    (resolveThread (some "thread_new") [] 7).store = Store.put [] 7 "thread_new" ∧
    Store.get (resolveThread (some "thread_new") [] 7).store 7 = some "thread_new" ∧
    (∀ cr2 : Option String,
      (resolveThread cr2 (resolveThread (some "thread_new") [] 7).store 7).createCalls = 0 ∧
      (resolveThread cr2 (resolveThread (some "thread_new") [] 7).store 7).tid = "thread_new" ∧
      (resolveThread cr2 (resolveThread (some "thread_new") [] 7).store 7).store =
        (resolveThread (some "thread_new") [] 7).store) :=
  c1_resolve_creates_once [] 7 "thread_new" rfl (by decide)

/-- C10: lookup presence is decided by Python truthiness, not key
membership: a mapping to the empty string is treated as absent (the remote
create API is called and the entry is overwritten with the new identifier);
only a mapping to a non-empty identifier is returned without a remote
call. -/
theorem c10_truthiness :
    (∀ (store : Store) (uid : Nat) (cid : String),
        Store.get store uid = some "" →
        (resolveThread (some cid) store uid).createCalls = 1 ∧
        (resolveThread (some cid) store uid).tid = cid ∧
        Store.get (resolveThread (some cid) store uid).store uid = some cid) ∧
    (∀ (store : Store) (uid : Nat) (v : String) (cr : Option String),
        Store.get store uid = some v → v ≠ "" →
        (resolveThread cr store uid).createCalls = 0 ∧
        (resolveThread cr store uid).tid = v ∧
        (resolveThread cr store uid).store = store) := by
  constructor
  · intro store uid cid hget
    have h1 : resolveThread (some cid) store uid =
        { store := Store.put store uid cid, tid := cid, createCalls := 1, saves := 1,
          ok := true } := by
      simp [resolveThread, hget, truthy]
    rw [h1]
    exact ⟨rfl, rfl, Store.get_put store uid cid⟩
  · intro store uid v cr hget hv
    refine ⟨?_, ?_, ?_⟩ <;> simp [resolveThread, hget, truthy, hv]

/-- Witness for C10 at a concrete input: user 7 mapped to the empty string
is re-created and overwritten. -/
theorem c10_witness :
    (resolveThread (some "thread_new") [(7, "")] 7).createCalls = 1 ∧
    (resolveThread (some "thread_new") [(7, "")] 7).tid = "thread_new" ∧
    Store.get (resolveThread (some "thread_new") [(7, "")] 7).store 7 = some "thread_new" :=
  c10_truthiness.1 [(7, "")] 7 "thread_new" (by decide)

/-- C4: saving the Session Store to the persisted file and loading it back
reconstructs an equal mapping (string-serialized integer keys round-trip):
load(save(store)) = store. -/
theorem c4_roundtrip (store : Store) :
    load_threads (FileState.valid (save_threads store)) =
      (store, LoadLog.loadedOk store.length) := by
  simp [load_threads, entriesOfFile_save store]

/-- C8: startup load never fails the process: a missing file yields the
empty map with a warning, malformed content yields the empty map with an
error, and `load_threads` is total (the process continues in every
case). -/
theorem c8_load_never_fails :
    load_threads FileState.missing = ([], LoadLog.warnMissing) ∧
    load_threads FileState.malformed = ([], LoadLog.errorDecode) :=
  ⟨rfl, rfl⟩

/-- C7: a long reply is split into ordered fixed-size chunks whose
concatenation is the original text, each chunk within the 1990-character
slice size; a text of length 5000 yields exactly 3 chunks; `sendChunked`
sends exactly these chunks when the reply exceeds the 2000-character
single-message limit. -/
theorem c7_chunking :
    (∀ l : List Char, (chunkText l).flatten = l) ∧
    (∀ l : List Char, ∀ part ∈ chunkText l, part.length ≤ chunkSize) ∧
    (∀ l : List Char, l.length = 5000 → (chunkText l).length = 3) ∧
    (∀ full : String, 2000 < full.length →
        sendChunked full = (chunkText full.data).map (fun p => String.mk p)) := by
  refine ⟨chunkText_flatten, ?_, chunkText_len_5000, ?_⟩
  · intro l part hp
    simpa [chunkSize] using chunkText_part_le l part hp
  · intro full h
    unfold sendChunked
    rw [if_neg (by omega)]

/-- Witness for C7 at a concrete input: a 5000-character text gives 3
chunks. -/
theorem c7_witness : (chunkText (List.replicate 5000 'a')).length = 3 :=
  c7_chunking.2.2.1 (List.replicate 5000 'a') (by rw [List.length_replicate])

theorem execRun_frame_or_reset (env : RunEnv) (store : Store) (uid : Nat) (content : String) :
    (execRun env store uid content).outcome = ExecOutcome.emptyReplyReset ∨
    ((execRun env store uid content).store = store ∧
     (execRun env store uid content).saves = 0 ∧
     (execRun env store uid content).deletes = 0) := by
  by_cases hto : (pollRun env.statuses 0 0).timedOut = true
  · right
    refine ⟨?_, ?_, ?_⟩ <;> simp [execRun, hto]
  · rw [Bool.not_eq_true] at hto
    cases hst : (pollRun env.statuses 0 0).finalStatus
    · right; refine ⟨?_, ?_, ?_⟩ <;> simp [execRun, hto, hst]
    · right; refine ⟨?_, ?_, ?_⟩ <;> simp [execRun, hto, hst]
    · right; refine ⟨?_, ?_, ?_⟩ <;> simp [execRun, hto, hst]
    · by_cases hresp : collectResponses env.runId env.msgs.reverse = []
      · left
        simp [execRun, hto, hst, hresp]
      · right
        refine ⟨?_, ?_, ?_⟩ <;> simp [execRun, hto, hst, hresp]
    · right; refine ⟨?_, ?_, ?_⟩ <;> simp [execRun, hto, hst]
    · right; refine ⟨?_, ?_, ?_⟩ <;> simp [execRun, hto, hst]
    · right; refine ⟨?_, ?_, ?_⟩ <;> simp [execRun, hto, hst]
    · right; refine ⟨?_, ?_, ?_⟩ <;> simp [execRun, hto, hst]

/-- C2: on a run that completes with zero matching assistant text segments,
the handler removes the user's Store entry and persists the removal (one
save), makes exactly one remote delete-conversation attempt (the
environment's delete outcome, including not-found, does not influence any
result — it is tolerated as non-fatal), reports the context-was-reset
message, and a subsequent message from the same user sees an absent mapping
and performs a fresh remote create. -/
theorem c2_empty_reply_reset (env : RunEnv) (store : Store) (uid : Nat) (content tid : String)
    (hget : Store.get store uid = some tid) (htid : tid ≠ "")
    (hto : (pollRun env.statuses 0 0).timedOut = false)
    (hst : (pollRun env.statuses 0 0).finalStatus = RunStatus.completed)
    (hempty : collectResponses env.runId env.msgs.reverse = []) :
    (execRun env store uid content).outcome = ExecOutcome.emptyReplyReset ∧
    (execRun env store uid content).store = Store.remove store uid ∧
    Store.get (execRun env store uid content).store uid = none ∧
    (execRun env store uid content).saves = 1 ∧
    (execRun env store uid content).deletes = 1 ∧
    (execRun env store uid content).sent = [resetMsg] ∧
    (∀ cid : String,
      (resolveThread (some cid) (execRun env store uid content).store uid).createCalls = 1) := by
  have hrec : execRun env store uid content =
      { store := Store.remove store uid, posted := [content], runsStarted := 1,
        retrieves := (pollRun env.statuses 0 0).finalIdx,
        cancels := (pollRun env.statuses 0 0).cancels, deletes := 1, saves := 1,
        sent := [resetMsg], outcome := ExecOutcome.emptyReplyReset } := by
    simp [execRun, hto, hst, hempty, hget, truthy, htid]
  rw [hrec]
  refine ⟨rfl, rfl, Store.get_remove store uid, rfl, rfl, rfl, ?_⟩
  intro cid
  simp [resolveThread, Store.get_remove, truthy]

/-- Witness for C2 at a concrete input: user 1 holds thread `t1`, the run
completes immediately, the conversation has no messages, and the remote
delete reports not-found. -/
theorem c2_witness :
    (execRun envCompletedEmpty [(1, "t1")] 1 "x").outcome = ExecOutcome.emptyReplyReset ∧
    (execRun envCompletedEmpty [(1, "t1")] 1 "x").store = Store.remove [(1, "t1")] 1 ∧
    Store.get (execRun envCompletedEmpty [(1, "t1")] 1 "x").store 1 = none ∧
    (execRun envCompletedEmpty [(1, "t1")] 1 "x").saves = 1 ∧
    (execRun envCompletedEmpty [(1, "t1")] 1 "x").deletes = 1 ∧
    (execRun envCompletedEmpty [(1, "t1")] 1 "x").sent = [resetMsg] ∧
    (∀ cid : String,
      (resolveThread (some cid) (execRun envCompletedEmpty [(1, "t1")] 1 "x").store 1).createCalls
        = 1) :=
  c2_empty_reply_reset envCompletedEmpty [(1, "t1")] 1 "x" "t1" (by decide) (by decide)
    (by rw [pollRun_not_pending envCompletedEmpty.statuses 0 0 (by decide)])
    (by rw [pollRun_not_pending envCompletedEmpty.statuses 0 0 (by decide)]; rfl) rfl

/-- C5: for every status sequence the polling loop terminates (pollRun is a
total function) with elapsed time at most the 120 s deadline plus one 1.5 s
poll interval (in tenths of a second), at most 81 retrieves, and a cancel
request exactly when the deadline was breached; on a breach the run cycle
ends with the Timeout outcome, exactly one cancel, no store mutation, and no
further polling beyond the already-made retrieves. -/
theorem c5_poll_terminates :
    (∀ sts : Nat → RunStatus,
        (pollRun sts 0 0).elapsed ≤ timeoutDecis + pollIntervalDecis ∧
        (pollRun sts 0 0).finalIdx ≤ 81 ∧
        (pollRun sts 0 0).cancels = (if (pollRun sts 0 0).timedOut then 1 else 0)) ∧
    (∀ (env : RunEnv) (store : Store) (uid : Nat) (content : String),
        (pollRun env.statuses 0 0).timedOut = true →
        (execRun env store uid content).outcome = ExecOutcome.timedOut ∧
        (execRun env store uid content).cancels = 1 ∧
        (execRun env store uid content).store = store ∧
        (execRun env store uid content).retrieves = (pollRun env.statuses 0 0).finalIdx) := by
  constructor
  · intro sts
    have h := pollRun_bounds sts 81 0 0 (by norm_num) (by norm_num)
    exact ⟨by simpa [timeoutDecis, pollIntervalDecis] using h.1, h.2.1, h.2.2⟩
  · intro env store uid content hto
    have hc : (pollRun env.statuses 0 0).cancels = 1 := by
      have h := (pollRun_bounds env.statuses 81 0 0 (by norm_num) (by norm_num)).2.2
      rw [hto] at h
      simpa using h
    refine ⟨?_, ?_, ?_, ?_⟩ <;> simp [execRun, hto, hc]

/-- Witness for C5 at a concrete input: a run that stays queued forever
breaches the deadline, is cancelled once, and yields the Timeout outcome. -/
theorem c5_witness :
    (execRun envAllQueued [] 1 "x").outcome = ExecOutcome.timedOut ∧
    (execRun envAllQueued [] 1 "x").cancels = 1 ∧
    (execRun envAllQueued [] 1 "x").store = [] ∧
    (execRun envAllQueued [] 1 "x").retrieves = (pollRun envAllQueued.statuses 0 0).finalIdx :=
  c5_poll_terminates.2 envAllQueued [] 1 "x"
    (pollRun_all_pending_timedOut envAllQueued.statuses (fun _ => rfl) 80 0 0 (by norm_num)
      (by norm_num))

/-- C6: a run cycle that ends with the Timeout, RequiresAction, RunFailed,
or RunUnhandledStatus outcome mutates neither the Session Store nor the
persisted file: the returned store is the input store, with zero saves and
zero deletes. -/
theorem c6_frame_no_mutation (env : RunEnv) (store : Store) (uid : Nat) (content : String)
    (h : frameOutcome (execRun env store uid content).outcome = true) :
    (execRun env store uid content).store = store ∧
    (execRun env store uid content).saves = 0 ∧
    (execRun env store uid content).deletes = 0 := by
  rcases execRun_frame_or_reset env store uid content with hr | hr
  · rw [hr] at h
    simp [frameOutcome] at h
  · exact hr

/-- Witness for C6 at a concrete input: an immediately failed run leaves the
store untouched. -/
theorem c6_witness :
    (execRun envFailedRun [(1, "t1")] 1 "x").store = [(1, "t1")] ∧
    (execRun envFailedRun [(1, "t1")] 1 "x").saves = 0 ∧
    (execRun envFailedRun [(1, "t1")] 1 "x").deletes = 0 :=
  c6_frame_no_mutation envFailedRun [(1, "t1")] 1 "x"
    (by
      have hp : pollRun envFailedRun.statuses 0 0 =
          { finalIdx := 0, elapsed := 0, timedOut := false, finalStatus := RunStatus.failed,
            cancels := 0 } :=
        pollRun_not_pending envFailedRun.statuses 0 0 (by decide)
      simp [execRun, hp, frameOutcome])

theorem replaceAll_nil (pat : List Char) : replaceAll pat [] = [] := by
  rw [replaceAll]

theorem stripMentions_empty (b : Nat) : stripMentions b "" = "" := by
  simp only [stripMentions]
  rw [replaceAll_nil, replaceAll_nil]
  rfl

/-- C3 counterexample: on a conversation whose single assistant message of
this run carries two text segments "a" then "b", the code produces "b\na"
(the final reversal swaps the block order inside one message), while a
chronological join of the collected segments is "a\nb" — the claim's
"joined in chronological order" fails on the code. -/
theorem c3_counterexample :
    extractReply "run_1" dTwoBlocks = "b\na" ∧
    chronologicalReply "run_1" dTwoBlocks = "a\nb" ∧
    ¬ extractReply "run_1" dTwoBlocks = chronologicalReply "run_1" dTwoBlocks := by
  exact ⟨by decide, by decide, by decide⟩

/-- C3 (amended): the extraction joins the collected segments in reverse
scan-collection order, which coincides with the chronological join whenever
every matching assistant message carries at most one text segment (block
order inside a single message is reversed otherwise); in particular, for a
run sequence queued then completed with one assistant segment "hello", the
result is exactly "hello", sent as one message, with no Store mutation. -/
theorem c3_extraction_amended :
    (∀ (rid : String) (dataAsc : List ThreadMsg),
        (∀ m ∈ dataAsc, (segsOf rid m).length ≤ 1) →
        extractReply rid dataAsc = chronologicalReply rid dataAsc) ∧
    (∀ (store : Store) (uid : Nat),
        (execRun envHello store uid "hi").outcome = ExecOutcome.replied "hello" ∧
        (execRun envHello store uid "hi").sent = ["hello"] ∧
        (execRun envHello store uid "hi").store = store ∧
        (execRun envHello store uid "hi").saves = 0 ∧
        (execRun envHello store uid "hi").deletes = 0) := by
  constructor
  · intro rid d H
    unfold extractReply chronologicalReply
    rw [collect_eq_flatMap, List.reverse_flatMap]
    congr 1
    apply List.flatMap_congr
    intro m hm
    have hmem : m ∈ d := by
      have h1 : m ∈ scanIncluded rid d.reverse := List.mem_reverse.mp hm
      exact List.mem_reverse.mp (scanIncluded_subset rid d.reverse m h1)
    simp only [Function.comp_apply]
    exact reverse_of_len_le_one _ (H m hmem)
  · intro store uid
    have hp : pollRun envHello.statuses 0 0 =
        { finalIdx := 1, elapsed := 15, timedOut := false, finalStatus := RunStatus.completed,
          cancels := 0 } := by
      rw [pollRun_step envHello.statuses 0 0 (by decide) (by norm_num)]
      rw [pollRun_not_pending envHello.statuses 1 15 (by decide)]
      rfl
    have hcol : collectResponses envHello.runId envHello.msgs.reverse = ["hello"] := by decide
    have hfull : String.intercalate "\n" ["hello"] = "hello" := by decide
    have hsend : sendChunked "hello" = ["hello"] := by decide
    refine ⟨?_, ?_, ?_, ?_, ?_⟩ <;> simp [execRun, hp, hcol, hfull, hsend]

/-- Witness for C3 (amended) at a concrete input: the conversation of
`envHello`, whose assistant messages carry one text segment each. -/
theorem c3_witness :
    extractReply "run_1" envHello.msgs = chronologicalReply "run_1" envHello.msgs :=
  c3_extraction_amended.1 "run_1" envHello.msgs (by decide)

/-- C9 counterexample: a direct message with empty extracted text is not
answered with a prompt-for-input: the DM branch has no empty-text check, so
the handler resolves a session (one remote create call), posts the empty
message, and starts a run — contradicting the claim for the
direct-message case. -/
theorem c9_counterexample :
    (on_message envFailedRun 9 false [] (Inbound.dm 7 "")).createCalls = 1 ∧
    (on_message envFailedRun 9 false [] (Inbound.dm 7 "")).posted = [""] ∧
    (on_message envFailedRun 9 false [] (Inbound.dm 7 "")).runsStarted = 1 := by
  have hp : pollRun (fun _ => RunStatus.failed) 0 0 =
      { finalIdx := 0, elapsed := 0, timedOut := false, finalStatus := RunStatus.failed,
        cancels := 0 } :=
    pollRun_not_pending (fun _ => RunStatus.failed) 0 0 (by decide)
  refine ⟨?_, ?_, ?_⟩ <;>
    simp [on_message, handleDM, resolveThread, execRun, hp, truthy, Store.get, envFailedRun]

/-- C9 (amended): only in the shared-channel mention path, an inbound event
whose extracted text (after stripping the mention tokens) is empty is
answered with a prompt-for-input reply and the handler stops: no session is
resolved, no remote conversation created, no message posted, no run started,
and the store is untouched; a direct message with empty text instead
proceeds to session resolution and run execution. -/
theorem c9_mention_empty_prompt (env : RunEnv) (store : Store) (uid botId : Nat)
    (content : String) (h : stripMentions botId content = "") :
    on_message env botId false store (Inbound.guildMsg uid true false content) =
      { store := store, createCalls := 0, posted := [], runsStarted := 0, retrieves := 0,
        cancels := 0, deletes := 0, saves := 0, sent := [promptMsg],
        outcome := HandlerOutcome.emptyPrompt } := by
  simp [on_message, handleMention, h]

/-- Witness for C9 (amended) at a concrete input: a mention event whose
content strips to the empty string. -/
theorem c9_witness :
    on_message envFailedRun 5 false [] (Inbound.guildMsg 3 true false "") =
      { store := [], createCalls := 0, posted := [], runsStarted := 0, retrieves := 0,
        cancels := 0, deletes := 0, saves := 0, sent := [promptMsg],
        outcome := HandlerOutcome.emptyPrompt } :=
  c9_mention_empty_prompt envFailedRun [] 3 5 "" (stripMentions_empty 5)
